import Mathlib

/-!
Verification of the LLM provider abstraction and response-normalization layer of the
repository `guychenya/ShowGitHubRepo`.

The development shallowly embeds the relevant TypeScript source:
  * `safeJsonParse` from `src/App.tsx` (the spec's `extractObject`), together with a
    model of the JavaScript builtin `JSON.parse` and of `String.prototype.substring`
    and `String.prototype.indexOf` / `lastIndexOf`;
  * the credential store and generation client from `src/llm-service.ts`
    (`setApiKeys`, `getApiKey`, `getAvailableProvider`, `generateContent`), with
    `localStorage`, `process.env` and the per-backend network calls made explicit
    as state fields and oracles.
-/

/-! ## JSON values and a model of `JSON.parse` -/

/-- The JSON value produced by parsing. Numbers are kept as their source lexeme
(the concrete claims only involve small integer literals, for which lexeme equality
coincides with JS number equality). Object members are kept in source order. -/
inductive Json where
  | null
  | bool (b : Bool)
  | num (lexeme : String)
  | str (s : String)
  | arr (elems : List Json)
  | obj (members : List (String × Json))

/-- The character `\x7b` (opening curly brace). -/
def lbrace : Char := Char.ofNat 123

/-- The character `\x7d` (closing curly brace). -/
def rbrace : Char := Char.ofNat 125

/-- JSON whitespace characters (space, tab, line feed, carriage return). -/
def isJsonWs (c : Char) : Bool :=
  c = ' ' || c = '\t' || c = '\n' || c = '\r'

/-- Drop leading JSON whitespace. -/
def skipWs : List Char → List Char
  | [] => []
  | c :: cs => if isJsonWs c then skipWs cs else c :: cs

/-- Value of a hexadecimal digit, if the character is one (either case). -/
def hexVal (c : Char) : Option Nat :=
  if c.isDigit then some (c.toNat - 48)
  else
    let low := c.toLower
    if 'a' ≤ low && low ≤ 'f' then some (low.toNat - 87) else none

/-- Parse the body of a JSON string literal (the opening quote has already been
consumed); returns the decoded string and the remaining input. Control characters
below U+0020 must be escaped, as in JSON. -/
def parseStringBody (acc : List Char) : List Char → Option (String × List Char)
  | [] => none
  | '"' :: rest => some (String.mk acc.reverse, rest)
  | '\\' :: '"' :: rest => parseStringBody ('"' :: acc) rest
  | '\\' :: '\\' :: rest => parseStringBody ('\\' :: acc) rest
  | '\\' :: '/' :: rest => parseStringBody ('/' :: acc) rest
  | '\\' :: 'b' :: rest => parseStringBody ('\x08' :: acc) rest
  | '\\' :: 'f' :: rest => parseStringBody ('\x0c' :: acc) rest
  | '\\' :: 'n' :: rest => parseStringBody ('\n' :: acc) rest
  | '\\' :: 'r' :: rest => parseStringBody ('\x0d' :: acc) rest
  | '\\' :: 't' :: rest => parseStringBody ('\t' :: acc) rest
  | '\\' :: 'u' :: a :: b :: c :: d :: rest =>
    match hexVal a, hexVal b, hexVal c, hexVal d with
    | some ha, some hb, some hc, some hd =>
      parseStringBody (Char.ofNat (((ha * 16 + hb) * 16 + hc) * 16 + hd) :: acc) rest
    | _, _, _, _ => none
  | '\\' :: _ => none
  | c :: rest => if c.toNat < 32 then none else parseStringBody (c :: acc) rest

/-- Parse a nonempty run of decimal digits. -/
def parseDigits (cs : List Char) : Option (List Char × List Char) :=
  let ds := cs.takeWhile Char.isDigit
  if ds.isEmpty then none else some (ds, cs.drop ds.length)

/-- The integer part of a JSON number: `0`, or a nonzero digit followed by digits. -/
def parseIntPart (cs : List Char) : Option (List Char × List Char) :=
  match cs with
  | '0' :: rest => some (['0'], rest)
  | _ => parseDigits cs

/-- The optional fraction part of a JSON number. -/
def parseFracPart (cs : List Char) : Option (List Char × List Char) :=
  match cs with
  | '.' :: rest =>
    match parseDigits rest with
    | some (ds, rest2) => some ('.' :: ds, rest2)
    | none => none
  | _ => some ([], cs)

/-- The optional exponent part of a JSON number. -/
def parseExpPart (cs : List Char) : Option (List Char × List Char) :=
  match cs with
  | 'e' :: '+' :: rest =>
    match parseDigits rest with
    | some (ds, rest2) => some ('e' :: '+' :: ds, rest2)
    | none => none
  | 'e' :: '-' :: rest =>
    match parseDigits rest with
    | some (ds, rest2) => some ('e' :: '-' :: ds, rest2)
    | none => none
  | 'e' :: rest =>
    match parseDigits rest with
    | some (ds, rest2) => some ('e' :: ds, rest2)
    | none => none
  | 'E' :: '+' :: rest =>
    match parseDigits rest with
    | some (ds, rest2) => some ('E' :: '+' :: ds, rest2)
    | none => none
  | 'E' :: '-' :: rest =>
    match parseDigits rest with
    | some (ds, rest2) => some ('E' :: '-' :: ds, rest2)
    | none => none
  | 'E' :: rest =>
    match parseDigits rest with
    | some (ds, rest2) => some ('E' :: ds, rest2)
    | none => none
  | _ => some ([], cs)

/-- Parse a JSON number, returning its lexeme. -/
def parseNumber (cs : List Char) : Option (String × List Char) :=
  let sign : List Char × List Char :=
    match cs with
    | '-' :: rest => (['-'], rest)
    | _ => ([], cs)
  match parseIntPart sign.snd with
  | none => none
  | some (ip, rest1) =>
    match parseFracPart rest1 with
    | none => none
    | some (fp, rest2) =>
      match parseExpPart rest2 with
      | none => none
      | some (ep, rest3) => some (String.mk (sign.fst ++ ip ++ fp ++ ep), rest3)

mutual

/-- Parse one JSON value (after optional leading whitespace). `fuel` bounds the
recursion depth; `jsonParse` supplies enough fuel for any input. -/
def parseValue : Nat → List Char → Option (Json × List Char)
  | 0, _ => none
  | fuel + 1, cs =>
    match skipWs cs with
    | [] => none
    | c :: rest =>
      if c = lbrace then parseObjTail fuel (skipWs rest)
      else if c = '[' then parseArrTail fuel (skipWs rest)
      else if c = '"' then
        match parseStringBody [] rest with
        | some (s, rest2) => some (Json.str s, rest2)
        | none => none
      else if c = 't' then
        match rest with
        | 'r' :: 'u' :: 'e' :: rest2 => some (Json.bool true, rest2)
        | _ => none
      else if c = 'f' then
        match rest with
        | 'a' :: 'l' :: 's' :: 'e' :: rest2 => some (Json.bool false, rest2)
        | _ => none
      else if c = 'n' then
        match rest with
        | 'u' :: 'l' :: 'l' :: rest2 => some (Json.null, rest2)
        | _ => none
      else if c = '-' || c.isDigit then
        match parseNumber (c :: rest) with
        | some (s, rest2) => some (Json.num s, rest2)
        | none => none
      else none

/-- Parse the rest of a JSON object, the opening brace and following whitespace
having been consumed. -/
def parseObjTail : Nat → List Char → Option (Json × List Char)
  | 0, _ => none
  | fuel + 1, cs =>
    match cs with
    | [] => none
    | c :: rest =>
      if c = rbrace then some (Json.obj [], rest)
      else parseMembers fuel (c :: rest) []

/-- Parse the members of a nonempty JSON object; the input starts at a key. -/
def parseMembers : Nat → List Char → List (String × Json) → Option (Json × List Char)
  | 0, _, _ => none
  | fuel + 1, cs, acc =>
    match cs with
    | '"' :: rest =>
      match parseStringBody [] rest with
      | some (key, rest1) =>
        match skipWs rest1 with
        | ':' :: rest2 =>
          match parseValue fuel rest2 with
          | some (v, rest3) =>
            match skipWs rest3 with
            | [] => none
            | c :: rest4 =>
              if c = ',' then parseMembers fuel (skipWs rest4) (acc ++ [(key, v)])
              else if c = rbrace then some (Json.obj (acc ++ [(key, v)]), rest4)
              else none
          | none => none
        | _ => none
      | none => none
    | _ => none

/-- Parse the rest of a JSON array, the opening bracket and following whitespace
having been consumed. -/
def parseArrTail : Nat → List Char → Option (Json × List Char)
  | 0, _ => none
  | fuel + 1, cs =>
    match cs with
    | [] => none
    | c :: rest =>
      if c = ']' then some (Json.arr [], rest)
      else parseElems fuel (c :: rest) []

/-- Parse the elements of a nonempty JSON array. -/
def parseElems : Nat → List Char → List Json → Option (Json × List Char)
  | 0, _, _ => none
  | fuel + 1, cs, acc =>
    match parseValue fuel cs with
    | some (v, rest1) =>
      match skipWs rest1 with
      | ',' :: rest2 => parseElems fuel rest2 (acc ++ [v])
      | ']' :: rest2 => some (Json.arr (acc ++ [v]), rest2)
      | _ => none
    | none => none

end

/-- Model of the JavaScript builtin `JSON.parse`: parse the whole text as one JSON
value (surrounded by optional whitespace). `Except.error` models the `SyntaxError`
the builtin throws on malformed input. -/
def jsonParse (s : String) : Except String Json :=
  match parseValue (3 * s.data.length + 4) s.data with
  | some (v, rest) =>
    match skipWs rest with
    | [] => Except.ok v
    | _ :: _ => Except.error "SyntaxError"
  | none => Except.error "SyntaxError"

/-- Turn the outcome of `jsonParse` into the value a JS `try / catch ... return null`
around it yields. -/
def exceptToNull (e : Except String Json) : Option Json :=
  match e with
  | Except.ok v => some v
  | Except.error _ => none

/-! ## Models of the JS string primitives used by `safeJsonParse` -/

/-- Model of `String.prototype.indexOf` for a single character: index of the first
occurrence, or `none` (JS returns `-1`). -/
def firstIndexOf (cs : List Char) (c : Char) : Option Nat :=
  match cs with
  | [] => none
  | x :: xs => if x = c then some 0 else (firstIndexOf xs c).map (· + 1)

/-- Model of `String.prototype.lastIndexOf` for a single character: index of the
last occurrence, or `none` (JS returns `-1`). -/
def lastIndexOf (cs : List Char) (c : Char) : Option Nat :=
  match cs with
  | [] => none
  | x :: xs =>
    match lastIndexOf xs c with
    | some i => some (i + 1)
    | none => if x = c then some 0 else none

/-- Clamp a `substring` index to the string length (the JS builtin clamps out-of-range
indices before use). -/
def clampIdx (s : String) (a : Nat) : Nat :=
  min a s.data.length

/-- Model of `String.prototype.substring`: both indices are clamped to the string
length and swapped if the first exceeds the second. -/
def jsSubstring (s : String) (a b : Nat) : String :=
  String.mk ((s.data.drop (min (clampIdx s a) (clampIdx s b))).take
    (max (clampIdx s a) (clampIdx s b) - min (clampIdx s a) (clampIdx s b)))

/-! ## `safeJsonParse` from `src/App.tsx` (the spec's `extractObject`) -/

/-- Embedding of `safeJsonParse` (src/App.tsx): locate the first brace-open and the
last brace-close; if either is missing, try `JSON.parse` on the whole text; otherwise
`JSON.parse` the `substring` between them (end exclusive index `jsonEnd + 1`).
Each `try / catch` returning `null` becomes `exceptToNull`. -/
def safeJsonParse (text : String) : Option Json :=
  let jsonStart := firstIndexOf text.data lbrace
  let jsonEnd := lastIndexOf text.data rbrace
  match jsonStart, jsonEnd with
  | some js, some je => exceptToNull (jsonParse (jsSubstring text js (je + 1)))
  | some _, none => exceptToNull (jsonParse text)
  | none, some _ => exceptToNull (jsonParse text)
  | none, none => exceptToNull (jsonParse text)

/-- The substring of `s` from index `a` through index `b` inclusive, as the spec
words it ("the substring from the first brace-open through the last brace-close
inclusive"). -/
def substrInclusive (s : String) (a b : Nat) : String :=
  String.mk ((s.data.drop a).take (b + 1 - a))

/-! ## The credential store and generation client from `src/llm-service.ts` -/

/-- The backend enumeration (`LLMProvider` in the source). -/
inductive LLMProvider where
  | gemini
  | groq
  | openai
deriving DecidableEq, Repr

/-- One optional secret per backend: the shape of `runtimeKeys`, of the three
`localStorage` entries, and of the three `process.env` variables. `none` models
JS `undefined` / a missing `localStorage` entry / an unset environment variable. -/
structure Keys where
  gemini : Option String
  groq : Option String
  openai : Option String
deriving DecidableEq, Repr

/-- Field of a `Keys` record selected by backend. -/
def Keys.get (k : Keys) : LLMProvider → Option String
  | .gemini => k.gemini
  | .groq => k.groq
  | .openai => k.openai

/-- Replace the field of a `Keys` record selected by backend. -/
def Keys.set (k : Keys) (p : LLMProvider) (v : Option String) : Keys :=
  match p with
  | .gemini => { k with gemini := v }
  | .groq => { k with groq := v }
  | .openai => { k with openai := v }

/-- JS truthiness of a `string | undefined` value: `undefined` and `""` are falsy. -/
def truthy (o : Option String) : Bool :=
  match o with
  | none => false
  | some v => v != ""

/-- JS `a || b` on `string | undefined` values. -/
def jsOr (a b : Option String) : Option String :=
  if truthy a then a else b

/-- JS whitespace characters removed by `String.prototype.trim` (WhiteSpace and
LineTerminator code points). -/
def isJsTrimWs (c : Char) : Bool :=
  c = ' ' || c = '\t' || c = '\n' || c = '\x0d' || c = '\x0b' || c = '\x0c' ||
  c = '\xa0' || c = Char.ofNat 0xfeff || c = Char.ofNat 0x2028 || c = Char.ofNat 0x2029

/-- Model of `String.prototype.trim`. -/
def jsTrim (s : String) : String :=
  String.mk (((s.data.dropWhile isJsTrimWs).reverse.dropWhile isJsTrimWs).reverse)

/-- The ambient state of `src/llm-service.ts`: the module-level `runtimeKeys` cache,
the `localStorage` contents, the build-time `process.env` values, whether
`window.localStorage` exists (`storageAvailable`), and whether a
`localStorage.setItem` call throws (e.g. quota exceeded; `setItemThrows`). -/
structure LLMState where
  runtimeKeys : Keys
  storage : Keys
  env : Keys
  storageAvailable : Bool
  setItemThrows : Bool
deriving DecidableEq, Repr

/-- Embedding of `initializeKeys`: when `localStorage` is available, refill
`runtimeKeys` from it, mapping empty entries to `undefined` (`getItem(...) || undefined`). -/
def initializeKeys (s : LLMState) : LLMState :=
  if s.storageAvailable then
    { s with runtimeKeys :=
        { gemini := jsOr s.storage.gemini none
          groq := jsOr s.storage.groq none
          openai := jsOr s.storage.openai none } }
  else s

/-- The guard `!runtimeKeys.gemini && !runtimeKeys.groq && !runtimeKeys.openai`
used by `getApiKeys` and `getApiKey` before reinitializing. -/
def allKeysFalsy (k : Keys) : Bool :=
  !truthy k.gemini && !truthy k.groq && !truthy k.openai

/-- Reinitialize from `localStorage` when every runtime key is falsy. -/
def reinitIfEmpty (s : LLMState) : LLMState :=
  if allKeysFalsy s.runtimeKeys then initializeKeys s else s

/-- Embedding of `getApiKey` (the spec's `resolve`): after the lazy
reinitialization, the runtime key for the backend, falling back to the
`process.env` value (`runtimeKeys.x || process.env.X_API_KEY`). Returns the
resolved value together with the mutated module state. -/
def getApiKey (p : LLMProvider) (s : LLMState) : Option String × LLMState :=
  let s1 := reinitIfEmpty s
  (jsOr (s1.runtimeKeys.get p) (s1.env.get p), s1)

/-- Embedding of `getAvailableProvider` (the spec's `selectBackend`): try
`gemini`, then `groq`, then `openai`, returning the first backend whose
resolved key is truthy, together with that key. -/
def getAvailableProvider (s : LLMState) : Option (LLMProvider × String) × LLMState :=
  let r1 := getApiKey .gemini s
  if truthy r1.fst then (some (.gemini, r1.fst.getD ""), r1.snd)
  else
    let r2 := getApiKey .groq r1.snd
    if truthy r2.fst then (some (.groq, r2.fst.getD ""), r2.snd)
    else
      let r3 := getApiKey .openai r2.snd
      if truthy r3.fst then (some (.openai, r3.fst.getD ""), r3.snd)
      else (none, r3.snd)

/-- Clear one backend's entry in `localStorage` and in `runtimeKeys`
(`localStorage.removeItem(...); runtimeKeys.x = undefined`). -/
def clearKey (p : LLMProvider) (s : LLMState) : LLMState :=
  { s with storage := s.storage.set p none, runtimeKeys := s.runtimeKeys.set p none }

/-- Store one backend's trimmed secret in `localStorage` and in `runtimeKeys`
(`localStorage.setItem(..., v.trim()); runtimeKeys.x = v.trim()`). -/
def storeKey (p : LLMProvider) (v : String) (s : LLMState) : LLMState :=
  { s with storage := s.storage.set p (some v), runtimeKeys := s.runtimeKeys.set p (some v) }

/-- One `if (keys.x && keys.x.trim()) ... else ...` block of `setApiKeys`. The
`setItem` call happens before the `runtimeKeys` assignment, so a throwing
`setItem` leaves the runtime cache untouched. -/
def setOne (kv : Option String) (p : LLMProvider) (s : LLMState) : Except String LLMState :=
  match kv with
  | some v =>
    if v != "" && jsTrim v != "" then
      if s.setItemThrows then Except.error "QuotaExceededError"
      else Except.ok (storeKey p (jsTrim v) s)
    else Except.ok (clearKey p s)
  | none => Except.ok (clearKey p s)

/-- Embedding of `setApiKeys` (the spec's `update`): bail out (with a logged
error) when `localStorage` is unavailable, then process `gemini`, `groq`,
`openai` in order. `Except.error` models an uncaught exception escaping the
function. -/
def setApiKeys (keys : Keys) (s : LLMState) : Except String LLMState :=
  if s.storageAvailable then
    match setOne keys.gemini .gemini s with
    | Except.error e => Except.error e
    | Except.ok s1 =>
      match setOne keys.groq .groq s1 with
      | Except.error e => Except.error e
      | Except.ok s2 => setOne keys.openai .openai s2
  else Except.ok s

/-- The string value of an `LLMProvider`, as interpolated by `${provider}`. -/
def providerName : LLMProvider → String
  | .gemini => "gemini"
  | .groq => "groq"
  | .openai => "openai"

/-- Outcome of awaiting one backend-specific call (`callGemini` / `callGroq` /
`callOpenAI`): the response text, or a thrown value — `threw (some m)` is an
`Error` whose `.message` is `m` (this covers the `Error` the call itself builds
from a non-ok transport status, and network failures), `threw none` a thrown
non-`Error` value. -/
inductive CallOutcome where
  | ok (text : String)
  | threw (msg : Option String)

/-- The `catch` clause of `generateContent`:
`error instanceof Error ? error.message : 'Unknown error'`. -/
def jsErrMessage (m : Option String) : String :=
  m.getD "Unknown error"

/-- Embedding of `generateContent` (the spec's `generate`). `call p k` is the
outcome of dispatching to backend `p` with api key `k`. Besides the result
(`Except.error` modelling a rejected promise) it returns the list of backends
actually dispatched to, and the module state. -/
def generateContent (call : LLMProvider → String → CallOutcome) (s : LLMState) :
    Except String String × List LLMProvider × LLMState :=
  let r := getAvailableProvider s
  match r.fst with
  | none =>
    (Except.error "No API key configured. Please configure at least one API key in settings.",
     [], r.snd)
  | some pk =>
    match call pk.fst pk.snd with
    | CallOutcome.ok t => (Except.ok t, [pk.fst], r.snd)
    | CallOutcome.threw m =>
      (Except.error (providerName pk.fst ++ " API error: " ++ jsErrMessage m), [pk.fst], r.snd)

/-- The fixed Backend Priority Order of the spec. -/
def priorityOrder : List LLMProvider := [.gemini, .groq, .openai]

/-- Position of a backend in the Backend Priority Order. -/
def priorityIdx : LLMProvider → Nat
  | .gemini => 0
  | .groq => 1
  | .openai => 2

/-- One step of the spec-side iteration: the backend together with its secret when
the resolved secret is present and non-empty, else nothing. -/
def specEntry (p : LLMProvider) (o : Option String) : Option (LLMProvider × String) :=
  match o with
  | some v => if v = "" then none else some (p, v)
  | none => none

/-- `selectBackend` as the spec words it: iterate the fixed Backend Priority
Order and return the first backend for which `resolve` yields a non-empty
secret, together with that secret; absent if none is configured. -/
def selectBackendSpec (s : LLMState) : Option (LLMProvider × String) :=
  priorityOrder.findSome? (fun p => specEntry p (getApiKey p s).fst)

/-- A credential-update input mentioning exactly one backend. -/
def singleKey (b : LLMProvider) (v : String) : Keys :=
  Keys.set ⟨none, none, none⟩ b (some v)

/-! ## Concrete states used as witnesses -/

/-- A browser state with no credential anywhere. -/
def exEmptyState : LLMState :=
  ⟨⟨none, none, none⟩, ⟨none, none, none⟩, ⟨none, none, none⟩, true, false⟩

/-- A browser state with runtime keys for groq and openai but not gemini. -/
def exGroqOpenaiState : LLMState :=
  ⟨⟨none, some "gq", some "oa"⟩, ⟨none, none, none⟩, ⟨none, none, none⟩, true, false⟩

/-- A browser state with a runtime key for gemini only. -/
def exGeminiState : LLMState :=
  ⟨⟨some "k", none, none⟩, ⟨none, none, none⟩, ⟨none, none, none⟩, true, false⟩

/-- A browser state holding a gemini credential in memory and in `localStorage`. -/
def exGeminiStored : LLMState :=
  ⟨⟨some "g", none, none⟩, ⟨some "g", none, none⟩, ⟨none, none, none⟩, true, false⟩

/-- The state `setApiKeys \x7bgroq: "x"\x7d` produces from `exGeminiStored`. -/
def exGeminiStoredAfter : LLMState :=
  ⟨⟨none, some "x", none⟩, ⟨none, some "x", none⟩, ⟨none, none, none⟩, true, false⟩

/-- A non-browser state: `localStorage` is unavailable. -/
def exNoStorageState : LLMState :=
  ⟨⟨none, none, none⟩, ⟨none, none, none⟩, ⟨none, none, none⟩, false, false⟩

/-- A browser state in which `localStorage.setItem` throws (e.g. quota exceeded). -/
def exQuotaState : LLMState :=
  ⟨⟨none, none, none⟩, ⟨none, none, none⟩, ⟨none, none, none⟩, true, true⟩

/-- A browser state with an environment default for groq and no other credential. -/
def exEnvState : LLMState :=
  ⟨⟨none, none, none⟩, ⟨none, none, none⟩, ⟨none, some "envq", none⟩, true, false⟩

/-- A browser state where groq has both a runtime key and an environment default. -/
def exRuntimeEnvState : LLMState :=
  ⟨⟨none, some "rt", none⟩, ⟨none, none, none⟩, ⟨none, some "envq", none⟩, true, false⟩

/-! ## Sanity checks of the JSON extraction on concrete inputs -/

example : safeJsonParse "\x7b\"a\":1\x7d" = some (Json.obj [("a", Json.num "1")]) := rfl
example : safeJsonParse "no json here" = none := rfl
example : safeJsonParse "\x7b\"a\": \x7b\"b\": 1\x7d\x7d" =
    some (Json.obj [("a", Json.obj [("b", Json.num "1")])]) := rfl
example : safeJsonParse "here is your answer:\n```json\n\x7b\"a\":1\x7d\n```" =
    some (Json.obj [("a", Json.num "1")]) := rfl
example : safeJsonParse "\x7d5\x7b" = some (Json.num "5") := rfl
example : safeJsonParse "\x7d \x7b" = none := rfl

/-! ## Helper lemmas -/

theorem lastIndexOf_lt_length {c : Char} {cs : List Char} :
    ∀ {i : Nat}, lastIndexOf cs c = some i → i < cs.length := by
  induction cs with
  | nil => intro i h; simp [lastIndexOf] at h
  | cons x xs ih =>
    intro i h
    cases hx : lastIndexOf xs c with
    | some j =>
      simp only [lastIndexOf, hx] at h
      injection h with h
      have hj := ih hx
      simp only [List.length_cons]
      omega
    | none =>
      simp only [lastIndexOf, hx] at h
      by_cases hxc : x = c
      · rw [if_pos hxc] at h
        injection h with h
        simp only [List.length_cons]
        omega
      · rw [if_neg hxc] at h
        exact absurd h (by simp)

theorem firstIndexOf_lt_length {c : Char} {cs : List Char} :
    ∀ {i : Nat}, firstIndexOf cs c = some i → i < cs.length := by
  induction cs with
  | nil => intro i h; simp [firstIndexOf] at h
  | cons x xs ih =>
    intro i h
    by_cases hxc : x = c
    · simp only [firstIndexOf, if_pos hxc] at h
      injection h with h
      simp only [List.length_cons]
      omega
    · simp only [firstIndexOf, if_neg hxc] at h
      cases hx : firstIndexOf xs c with
      | some j =>
        rw [hx] at h
        simp only [Option.map_some'] at h
        injection h with h
        have hj := ih hx
        simp only [List.length_cons]
        omega
      | none =>
        rw [hx] at h
        exact absurd h (by simp)

theorem jsSubstring_of_le (s : String) (a b : Nat) (hab : a ≤ b) (hb : b ≤ s.data.length) :
    jsSubstring s a b = String.mk ((s.data.drop a).take (b - a)) := by
  have h1 : clampIdx s a = a := by unfold clampIdx; omega
  have h2 : clampIdx s b = b := by unfold clampIdx; omega
  simp only [jsSubstring, h1, h2, min_eq_left hab, max_eq_right hab]

theorem jsSubstring_of_ge (s : String) (a b : Nat) (hba : b ≤ a) (ha : a ≤ s.data.length) :
    jsSubstring s a b = String.mk ((s.data.drop b).take (a - b)) := by
  have h1 : clampIdx s a = a := by unfold clampIdx; omega
  have h2 : clampIdx s b = b := by unfold clampIdx; omega
  simp only [jsSubstring, h1, h2, min_eq_right hba, max_eq_left hba]

theorem reinitIfEmpty_idem (s : LLMState) : reinitIfEmpty (reinitIfEmpty s) = reinitIfEmpty s := by
  by_cases h : allKeysFalsy s.runtimeKeys
  · by_cases ha : s.storageAvailable
    · simp only [reinitIfEmpty, initializeKeys, h, ha, if_true]
      split
      · simp [ha]
      · rfl
    · simp only [reinitIfEmpty, initializeKeys, h, if_true]
      simp [ha, h]
  · simp [reinitIfEmpty, h]

theorem getApiKey_stateStable (p q : LLMProvider) (s : LLMState) :
    getApiKey p ((getApiKey q s).snd) = getApiKey p s := by
  simp [getApiKey, reinitIfEmpty_idem]

theorem reinitIfEmpty_env (s : LLMState) : (reinitIfEmpty s).env = s.env := by
  simp only [reinitIfEmpty, initializeKeys]
  split
  · split <;> rfl
  · rfl

theorem truthy_jsOr (a b : Option String) : truthy (jsOr a b) = (truthy a || truthy b) := by
  by_cases h : truthy a <;> simp [jsOr, h]

/-- `getAvailableProvider` in terms of the three resolved keys (the state threading
through the cascade is invisible because reinitialization is idempotent). -/
theorem gav_eqn (s : LLMState) :
    getAvailableProvider s =
      (if truthy (getApiKey .gemini s).fst then
         (some (.gemini, ((getApiKey .gemini s).fst).getD ""), reinitIfEmpty s)
       else if truthy (getApiKey .groq s).fst then
         (some (.groq, ((getApiKey .groq s).fst).getD ""), reinitIfEmpty s)
       else if truthy (getApiKey .openai s).fst then
         (some (.openai, ((getApiKey .openai s).fst).getD ""), reinitIfEmpty s)
       else (none, reinitIfEmpty s)) := by
  simp only [getAvailableProvider, getApiKey, reinitIfEmpty_idem]

/-- The first projection of the cascade. -/
theorem gav_fst (s : LLMState) :
    (getAvailableProvider s).fst =
      (if truthy (getApiKey .gemini s).fst then
         some (.gemini, ((getApiKey .gemini s).fst).getD "")
       else if truthy (getApiKey .groq s).fst then
         some (.groq, ((getApiKey .groq s).fst).getD "")
       else if truthy (getApiKey .openai s).fst then
         some (.openai, ((getApiKey .openai s).fst).getD "")
       else none) := by
  rw [gav_eqn]
  by_cases h1 : truthy (getApiKey .gemini s).fst <;>
    by_cases h2 : truthy (getApiKey .groq s).fst <;>
      by_cases h3 : truthy (getApiKey .openai s).fst <;>
        simp [h1, h2, h3]

theorem truthy_none : truthy none = false := rfl

theorem truthy_some (v : String) : truthy (some v) = (v != "") := rfl

/-- A spec-side entry in terms of JS truthiness. -/
theorem specEntry_eq (p : LLMProvider) (o : Option String) :
    specEntry p o = if truthy o then some (p, o.getD "") else none := by
  rcases o with _ | v
  · rfl
  · rcases eq_or_ne v "" with hv | hv
    · subst hv; rfl
    · simp [specEntry, truthy_some, hv, bne_iff_ne]

/-- The spec-side selection computes the same cascade over the three resolved keys. -/
theorem selectBackendSpec_eqn (s : LLMState) :
    selectBackendSpec s =
      (if truthy (getApiKey .gemini s).fst then
         some (.gemini, ((getApiKey .gemini s).fst).getD "")
       else if truthy (getApiKey .groq s).fst then
         some (.groq, ((getApiKey .groq s).fst).getD "")
       else if truthy (getApiKey .openai s).fst then
         some (.openai, ((getApiKey .openai s).fst).getD "")
       else none) := by
  simp only [selectBackendSpec, priorityOrder, List.findSome?, specEntry_eq]
  by_cases h1 : truthy (getApiKey .gemini s).fst <;>
    by_cases h2 : truthy (getApiKey .groq s).fst <;>
      by_cases h3 : truthy (getApiKey .openai s).fst <;>
        simp [h1, h2, h3]

theorem resolved_falsy_of_empty (s : LLMState)
    (hrun : ∀ p, truthy (s.runtimeKeys.get p) = false)
    (hsto : ∀ p, truthy (s.storage.get p) = false)
    (henv : ∀ p, truthy (s.env.get p) = false) :
    ∀ p, truthy (getApiKey p s).fst = false := by
  intro p
  have hg : truthy s.runtimeKeys.gemini = false := hrun .gemini
  have hq : truthy s.runtimeKeys.groq = false := hrun .groq
  have ho : truthy s.runtimeKeys.openai = false := hrun .openai
  have hre : (reinitIfEmpty s).env = s.env := reinitIfEmpty_env s
  have hrr : truthy ((reinitIfEmpty s).runtimeKeys.get p) = false := by
    simp only [reinitIfEmpty, allKeysFalsy, hg, hq, ho, Bool.not_false, Bool.and_self, if_true]
    by_cases ha : s.storageAvailable
    · have hsg : truthy s.storage.gemini = false := hsto .gemini
      have hsq : truthy s.storage.groq = false := hsto .groq
      have hso : truthy s.storage.openai = false := hsto .openai
      cases p <;> simp [initializeKeys, ha, Keys.get, truthy_jsOr, hsg, hsq, hso, truthy_none]
    · cases p <;> simp [initializeKeys, ha, Keys.get, hg, hq, ho]
  have : truthy (jsOr ((reinitIfEmpty s).runtimeKeys.get p) ((reinitIfEmpty s).env.get p)) = false := by
    rw [truthy_jsOr, hrr, hre, henv p]
    rfl
  exact this

theorem Keys.get_set_self (k : Keys) (p : LLMProvider) (v : Option String) :
    (k.set p v).get p = v := by
  cases p <;> rfl

theorem Keys.get_set_other (k : Keys) (p q : LLMProvider) (v : Option String) (h : p ≠ q) :
    (k.set p v).get q = k.get q := by
  cases p <;> cases q <;> first | rfl | exact absurd rfl h

/-- A successful `setOne` either stored the trimmed value or cleared the entry. -/
theorem setOne_ok_shape (kv : Option String) (p : LLMProvider) (s t : LLMState)
    (h : setOne kv p s = Except.ok t) :
    t = storeKey p (jsTrim (kv.getD "")) s ∨ t = clearKey p s := by
  rcases kv with _ | v
  · simp only [setOne] at h
    injection h with h
    exact Or.inr h.symm
  · simp only [setOne] at h
    split at h
    · split at h
      · exact absurd h (by simp)
      · injection h with h
        exact Or.inl h.symm
    · injection h with h
      exact Or.inr h.symm

theorem setOne_preserves_other (kv : Option String) (p : LLMProvider) (s t : LLMState)
    (h : setOne kv p s = Except.ok t) (q : LLMProvider) (hpq : p ≠ q) :
    t.runtimeKeys.get q = s.runtimeKeys.get q ∧ t.storage.get q = s.storage.get q := by
  rcases setOne_ok_shape kv p s t h with h1 | h1 <;> subst h1 <;>
    exact ⟨Keys.get_set_other _ _ _ _ hpq, Keys.get_set_other _ _ _ _ hpq⟩

theorem setOne_flags (kv : Option String) (p : LLMProvider) (s t : LLMState)
    (h : setOne kv p s = Except.ok t) :
    t.env = s.env ∧ t.storageAvailable = s.storageAvailable ∧ t.setItemThrows = s.setItemThrows := by
  rcases setOne_ok_shape kv p s t h with h1 | h1 <;> subst h1 <;> exact ⟨rfl, rfl, rfl⟩

theorem setOne_noThrow (kv : Option String) (p : LLMProvider) (s : LLMState)
    (hthr : s.setItemThrows = false) :
    ∃ t, setOne kv p s = Except.ok t := by
  rcases kv with _ | v
  · exact ⟨_, rfl⟩
  · simp only [setOne, hthr]
    split
    · simp only [Bool.false_eq_true, if_false]
      exact ⟨_, rfl⟩
    · exact ⟨_, rfl⟩

theorem setOne_cleared (kv : Option String) (p : LLMProvider) (s t : LLMState)
    (h : setOne kv p s = Except.ok t) (hkv : kv = none) :
    t.runtimeKeys.get p = none ∧ t.storage.get p = none := by
  subst hkv
  simp only [setOne] at h
  injection h with h
  subst h
  exact ⟨Keys.get_set_self _ _ _, Keys.get_set_self _ _ _⟩

/-! ## Claim theorems -/

/-- C1: `getAvailableProvider` iterates the fixed priority order gemini, groq, openai
and returns the first backend whose resolved secret is non-empty, together with that
secret; whenever backends A and B are both configured and A precedes B, the selected
backend is A or an even earlier configured backend — never B; and it returns `none`
when no backend resolves to a secret. -/
theorem selectBackend_priority_order (s : LLMState) :
    (getAvailableProvider s).fst = selectBackendSpec s ∧
    ((∀ p, truthy (getApiKey p s).fst = false) → (getAvailableProvider s).fst = none) ∧
    (∀ A B : LLMProvider, truthy (getApiKey A s).fst = true → truthy (getApiKey B s).fst = true →
      priorityIdx A < priorityIdx B →
      ∃ C key, (getAvailableProvider s).fst = some (C, key) ∧
        priorityIdx C ≤ priorityIdx A ∧ C ≠ B) := by
  refine ⟨by rw [gav_fst, selectBackendSpec_eqn], ?_, ?_⟩
  · intro h
    rw [gav_fst]
    simp [h .gemini, h .groq, h .openai]
  · intro A B hA hB hAB
    cases hg : truthy (getApiKey .gemini s).fst with
    | true =>
      have hle : priorityIdx .gemini ≤ priorityIdx A := Nat.zero_le _
      refine ⟨.gemini, ((getApiKey .gemini s).fst).getD "",
        by rw [gav_fst]; simp [hg], hle, ?_⟩
      intro hC
      subst hC
      exact absurd hAB (not_lt.mpr hle)
    | false =>
      cases hq : truthy (getApiKey .groq s).fst with
      | true =>
        have hle : priorityIdx .groq ≤ priorityIdx A := by
          cases A
          · rw [hg] at hA; exact absurd hA (by simp)
          · exact le_refl _
          · simp [priorityIdx]
        refine ⟨.groq, ((getApiKey .groq s).fst).getD "",
          by rw [gav_fst]; simp [hg, hq], hle, ?_⟩
        intro hC
        subst hC
        exact absurd hAB (not_lt.mpr hle)
      | false =>
        cases ho : truthy (getApiKey .openai s).fst with
        | true =>
          have hle : priorityIdx .openai ≤ priorityIdx A := by
            cases A
            · rw [hg] at hA; exact absurd hA (by simp)
            · rw [hq] at hA; exact absurd hA (by simp)
            · exact le_refl _
          refine ⟨.openai, ((getApiKey .openai s).fst).getD "",
            by rw [gav_fst]; simp [hg, hq, ho], hle, ?_⟩
          intro hC
          subst hC
          exact absurd hAB (not_lt.mpr hle)
        | false =>
          cases A
          · rw [hg] at hA; exact absurd hA (by simp)
          · rw [hq] at hA; exact absurd hA (by simp)
          · rw [ho] at hA; exact absurd hA (by simp)

/-- Witness for C1: with no credential the selection is absent; with groq and openai
configured (and gemini not), the selected backend is not openai. -/
theorem selectBackend_priority_order_witness :
    (getAvailableProvider exEmptyState).fst = none ∧
    (∃ C key, (getAvailableProvider exGroqOpenaiState).fst = some (C, key) ∧
      priorityIdx C ≤ priorityIdx LLMProvider.groq ∧ C ≠ LLMProvider.openai) :=
  ⟨(selectBackend_priority_order exEmptyState).2.1 (fun p => by cases p <;> rfl),
   (selectBackend_priority_order exGroqOpenaiState).2.2 .groq .openai rfl rfl (by decide)⟩

/-- C2: with an entirely empty credential set (no runtime, persisted or environment
key is truthy) the selection is absent and `generateContent` rejects with exactly
the no-credential message, for every prompt (the `call` oracle is arbitrary). -/
theorem generate_noCredential (s : LLMState) (call : LLMProvider → String → CallOutcome)
    (hrun : ∀ p, truthy (s.runtimeKeys.get p) = false)
    (hsto : ∀ p, truthy (s.storage.get p) = false)
    (henv : ∀ p, truthy (s.env.get p) = false) :
    (getAvailableProvider s).fst = none ∧
    (generateContent call s).fst =
      Except.error "No API key configured. Please configure at least one API key in settings." := by
  have hall := resolved_falsy_of_empty s hrun hsto henv
  have hnone : (getAvailableProvider s).fst = none := by
    rw [gav_fst]
    simp [hall .gemini, hall .groq, hall .openai]
  exact ⟨hnone, by simp [generateContent, hnone]⟩

/-- Witness for C2 at the concrete empty state. -/
theorem generate_noCredential_witness :
    (getAvailableProvider exEmptyState).fst = none ∧
    (generateContent (fun _ _ => CallOutcome.threw none) exEmptyState).fst =
      Except.error "No API key configured. Please configure at least one API key in settings." :=
  generate_noCredential exEmptyState (fun _ _ => CallOutcome.threw none)
    (fun p => by cases p <;> rfl) (fun p => by cases p <;> rfl) (fun p => by cases p <;> rfl)

/-- C3: when the selected backend's call throws an `Error`, `generateContent`
rejects with a single error whose message is the backend name, the fixed
" API error: " infix, and the original message — and dispatches to no backend
other than the selected one. -/
theorem generate_failure_wrapped (s : LLMState) (call : LLMProvider → String → CallOutcome)
    (p : LLMProvider) (k msg : String)
    (hsel : (getAvailableProvider s).fst = some (p, k))
    (hcall : call p k = CallOutcome.threw (some msg)) :
    (generateContent call s).fst = Except.error (providerName p ++ " API error: " ++ msg) ∧
    (generateContent call s).snd.fst = [p] := by
  constructor <;> simp [generateContent, hsel, hcall, jsErrMessage]

/-- Witness for C3: a configured gemini backend whose call throws `Error("boom")`. -/
theorem generate_failure_wrapped_witness :
    (generateContent (fun _ _ => CallOutcome.threw (some "boom")) exGeminiState).fst =
      Except.error ("gemini" ++ " API error: " ++ "boom") ∧
    (generateContent (fun _ _ => CallOutcome.threw (some "boom")) exGeminiState).snd.fst =
      [LLMProvider.gemini] :=
  generate_failure_wrapped exGeminiState (fun _ _ => CallOutcome.threw (some "boom"))
    .gemini "k" "boom" rfl rfl

/-- C4: when the text contains both braces and the first brace-open is at or before
the last brace-close, `safeJsonParse` parses exactly the inclusive substring between
them; and the claim's concrete examples — a bare object, the object wrapped in prose,
the object wrapped in a markdown fence, text with no JSON, and nested braces. -/
theorem extractObject_brace_algorithm :
    (∀ (text : String) (js je : Nat), firstIndexOf text.data lbrace = some js →
        lastIndexOf text.data rbrace = some je → js ≤ je →
        safeJsonParse text = exceptToNull (jsonParse (substrInclusive text js je))) ∧
    safeJsonParse "\x7b\"a\":1\x7d" = some (Json.obj [("a", Json.num "1")]) ∧
    safeJsonParse "The answer is \x7b\"a\":1\x7d, enjoy" = some (Json.obj [("a", Json.num "1")]) ∧
    safeJsonParse "here is your answer:\n```json\n\x7b\"a\":1\x7d\n```" =
      some (Json.obj [("a", Json.num "1")]) ∧
    safeJsonParse "no json here" = none ∧
    safeJsonParse "\x7b\"a\": \x7b\"b\": 1\x7d\x7d" =
      some (Json.obj [("a", Json.obj [("b", Json.num "1")])]) := by
  refine ⟨?_, rfl, rfl, rfl, rfl, rfl⟩
  intro text js je hf hl hle
  have hlen : je < text.data.length := lastIndexOf_lt_length hl
  have hsub : jsSubstring text js (je + 1) = substrInclusive text js je := by
    rw [jsSubstring_of_le text js (je + 1) (by omega) (by omega)]
    rfl
  simp only [safeJsonParse, hf, hl, hsub]

/-- Witness for C4 at a text whose first brace-open (index 2) precedes its last
brace-close (index 3). -/
theorem extractObject_brace_algorithm_witness :
    safeJsonParse "ab\x7b\x7dcd" =
      exceptToNull (jsonParse (substrInclusive "ab\x7b\x7dcd" 2 3)) :=
  extractObject_brace_algorithm.1 "ab\x7b\x7dcd" 2 3 rfl rfl (by decide)

/-- C5: `safeJsonParse` is total — every input yields a parsed value or `null`;
when either brace is missing it direct-parses the whole text (null on failure),
and when the extracted substring fails to parse it returns `null`. -/
theorem extractObject_total (text : String) :
    ((∃ v, safeJsonParse text = some v) ∨ safeJsonParse text = none) ∧
    ((firstIndexOf text.data lbrace = none ∨ lastIndexOf text.data rbrace = none) →
      safeJsonParse text = exceptToNull (jsonParse text)) ∧
    (∀ (js je : Nat) (e : String), firstIndexOf text.data lbrace = some js →
      lastIndexOf text.data rbrace = some je →
      jsonParse (jsSubstring text js (je + 1)) = Except.error e →
      safeJsonParse text = none) := by
  refine ⟨?_, ?_, ?_⟩
  · cases h : safeJsonParse text with
    | some v => exact Or.inl ⟨v, rfl⟩
    | none => exact Or.inr rfl
  · intro hor
    rcases hor with hf | hl
    · cases hl2 : lastIndexOf text.data rbrace <;> simp [safeJsonParse, hf, hl2]
    · cases hf2 : firstIndexOf text.data lbrace <;> simp [safeJsonParse, hf2, hl]
  · intro js je e hf hl herr
    simp [safeJsonParse, hf, hl, herr, exceptToNull]

/-- Witness for C5: a brace-free text falls back to a direct parse, and a text whose
brace-delimited substring is malformed yields `null`. -/
theorem extractObject_total_witness :
    safeJsonParse "no json here" = exceptToNull (jsonParse "no json here") ∧
    safeJsonParse "\x7b]\x7d" = none :=
  ⟨(extractObject_total "no json here").2.1 (Or.inl rfl),
   (extractObject_total "\x7b]\x7d").2.2 0 2 "SyntaxError" rfl rfl rfl⟩

/-- C10 counterexample: on `"\x7d5\x7b"` the last brace-close (index 0) precedes the
first brace-open (index 2), yet `safeJsonParse` returns the number 5 rather than
`null` — JS `substring` swaps its arguments, extracting `"5"`. -/
theorem extractObject_inverted_nonnull :
    firstIndexOf "\x7d5\x7b".data lbrace = some 2 ∧
    lastIndexOf "\x7d5\x7b".data rbrace = some 0 ∧
    safeJsonParse "\x7d5\x7b" = some (Json.num "5") :=
  ⟨rfl, rfl, rfl⟩

/-- C10 (amended): when the last brace-close precedes the first brace-open,
JS `substring` swaps its clamped arguments, so `safeJsonParse` parses the text
strictly between the last brace-close and the first brace-open, returning `null`
exactly when that slice is not valid JSON — as on `"\x7d \x7b"`; no exception
escapes and the direct-parse fallback is not attempted. -/
theorem extractObject_inverted_braces :
    (∀ (text : String) (js je : Nat), firstIndexOf text.data lbrace = some js →
        lastIndexOf text.data rbrace = some je → je < js →
        safeJsonParse text =
          exceptToNull (jsonParse (String.mk ((text.data.drop (je + 1)).take (js - (je + 1)))))) ∧
    safeJsonParse "\x7d \x7b" = none := by
  constructor
  · intro text js je hf hl hji
    have hlen : js < text.data.length := firstIndexOf_lt_length hf
    have hsub : jsSubstring text js (je + 1) =
        String.mk ((text.data.drop (je + 1)).take (js - (je + 1))) := by
      rw [jsSubstring_of_ge text js (je + 1) (by omega) (by omega)]
    simp only [safeJsonParse, hf, hl, hsub]
  · rfl

/-- Witness for C10 (amended) at `"\x7da\x7b"`: the swapped slice is `"a"`, which is
not valid JSON, so the result is `null`. -/
theorem extractObject_inverted_braces_witness :
    safeJsonParse "\x7da\x7b" =
      exceptToNull (jsonParse (String.mk (("\x7da\x7b".data.drop 1).take 1))) ∧
    safeJsonParse "\x7d \x7b" = none :=
  ⟨extractObject_inverted_braces.1 "\x7da\x7b" 2 0 rfl rfl (by decide),
   extractObject_inverted_braces.2⟩

/-- C6 counterexample: with gemini configured in memory and `localStorage`, the call
`setApiKeys \x7bgroq: "x"\x7d` — gemini not mentioned — clears gemini's in-memory and
persisted entries instead of leaving them untouched. -/
theorem setApiKeys_clears_unmentioned :
    (setApiKeys ⟨none, some "x", none⟩ exGeminiStored).map (fun s2 => s2.runtimeKeys.gemini) =
      Except.ok none ∧
    (setApiKeys ⟨none, some "x", none⟩ exGeminiStored).map (fun s2 => s2.storage.gemini) =
      Except.ok none ∧
    exGeminiStored.runtimeKeys.gemini = some "g" ∧
    exGeminiStored.storage.gemini = some "g" :=
  ⟨rfl, rfl, rfl, rfl⟩

/-- C6 (amended): a successful `setApiKeys` clears — in memory and in persisted
storage — every backend not mentioned in its input, exactly as if it had been
supplied an empty value; only backends supplied a non-empty value survive. -/
theorem setApiKeys_unmentioned_cleared (keys : Keys) (s s2 : LLMState) (b : LLMProvider)
    (havail : s.storageAvailable = true) (hok : setApiKeys keys s = Except.ok s2)
    (hb : keys.get b = none) :
    s2.runtimeKeys.get b = none ∧ s2.storage.get b = none := by
  simp only [setApiKeys, havail, if_true] at hok
  cases h1 : setOne keys.gemini .gemini s with
  | error e => simp [h1] at hok
  | ok s1 =>
    simp only [h1] at hok
    cases h2 : setOne keys.groq .groq s1 with
    | error e => simp [h2] at hok
    | ok s2mid =>
      simp only [h2] at hok
      cases b with
      | gemini =>
        have hcl := setOne_cleared keys.gemini .gemini s s1 h1 hb
        have hp2 := setOne_preserves_other keys.groq .groq s1 s2mid h2 .gemini (by decide)
        have hp3 := setOne_preserves_other keys.openai .openai s2mid s2 hok .gemini (by decide)
        exact ⟨hp3.1.trans (hp2.1.trans hcl.1), hp3.2.trans (hp2.2.trans hcl.2)⟩
      | groq =>
        have hcl := setOne_cleared keys.groq .groq s1 s2mid h2 hb
        have hp3 := setOne_preserves_other keys.openai .openai s2mid s2 hok .groq (by decide)
        exact ⟨hp3.1.trans hcl.1, hp3.2.trans hcl.2⟩
      | openai =>
        exact setOne_cleared keys.openai .openai s2mid s2 hok hb

/-- Witness for C6 (amended) at the state produced by `setApiKeys \x7bgroq: "x"\x7d`. -/
theorem setApiKeys_unmentioned_cleared_witness :
    exGeminiStoredAfter.runtimeKeys.get .gemini = none ∧
    exGeminiStoredAfter.storage.get .gemini = none :=
  setApiKeys_unmentioned_cleared ⟨none, some "x", none⟩ exGeminiStored exGeminiStoredAfter
    .gemini rfl rfl rfl

/-- C7 counterexample: when `localStorage` is unavailable, `setApiKeys` returns
without updating the in-memory set (gemini stays `undefined` instead of becoming
"k"); and when a persistence write throws, the exception escapes `setApiKeys`. -/
theorem setApiKeys_persistence_failures :
    setApiKeys ⟨some "k", none, none⟩ exNoStorageState = Except.ok exNoStorageState ∧
    exNoStorageState.runtimeKeys.gemini = none ∧
    setApiKeys ⟨some "k", none, none⟩ exQuotaState = Except.error "QuotaExceededError" :=
  ⟨rfl, rfl, rfl⟩

/-- C7 (amended): `setApiKeys` does not throw when persistence is unavailable but
then leaves the whole state (in-memory set included) unchanged; when persistence is
available and writes succeed it completes without throwing; when a write throws
(here on a non-empty gemini entry) the exception propagates to the caller. -/
theorem setApiKeys_persistence_behavior (keys : Keys) (s : LLMState) :
    (s.storageAvailable = false → setApiKeys keys s = Except.ok s) ∧
    (s.storageAvailable = true → s.setItemThrows = false →
      ∃ s2, setApiKeys keys s = Except.ok s2) ∧
    (s.storageAvailable = true → s.setItemThrows = true →
      ∀ v, keys.gemini = some v → v ≠ "" → jsTrim v ≠ "" →
        setApiKeys keys s = Except.error "QuotaExceededError") := by
  refine ⟨?_, ?_, ?_⟩
  · intro h
    simp [setApiKeys, h]
  · intro ha ht
    obtain ⟨s1, h1⟩ := setOne_noThrow keys.gemini .gemini s ht
    have hf1 := setOne_flags keys.gemini .gemini s s1 h1
    obtain ⟨s2, h2⟩ := setOne_noThrow keys.groq .groq s1 (hf1.2.2.trans ht)
    have hf2 := setOne_flags keys.groq .groq s1 s2 h2
    obtain ⟨s3, h3⟩ := setOne_noThrow keys.openai .openai s2 (hf2.2.2.trans (hf1.2.2.trans ht))
    exact ⟨s3, by simp [setApiKeys, ha, h1, h2, h3]⟩
  · intro ha ht v hv hne htrim
    have hb1 : (v != "") = true := bne_iff_ne.mpr hne
    have hb2 : (jsTrim v != "") = true := bne_iff_ne.mpr htrim
    simp [setApiKeys, ha, setOne, hv, ht, hb1, hb2]

/-- Witness for C7 (amended) at the three concrete states. -/
theorem setApiKeys_persistence_behavior_witness :
    setApiKeys ⟨some "k", none, none⟩ exNoStorageState = Except.ok exNoStorageState ∧
    (∃ s2, setApiKeys ⟨some "k", none, none⟩ exEmptyState = Except.ok s2) ∧
    setApiKeys ⟨some "k", none, none⟩ exQuotaState = Except.error "QuotaExceededError" :=
  ⟨(setApiKeys_persistence_behavior ⟨some "k", none, none⟩ exNoStorageState).1 rfl,
   (setApiKeys_persistence_behavior ⟨some "k", none, none⟩ exEmptyState).2.1 rfl rfl,
   (setApiKeys_persistence_behavior ⟨some "k", none, none⟩ exQuotaState).2.2 rfl rfl "k" rfl
     (by decide) (by decide)⟩

/-- C8: in a browser state whose writes succeed, storing a non-empty trimmed secret
for a backend and then resolving that backend returns exactly that secret. -/
theorem update_resolve_roundtrip (b : LLMProvider) (sec : String) (s : LLMState)
    (havail : s.storageAvailable = true) (hthrow : s.setItemThrows = false)
    (htrim : jsTrim sec = sec) (hne : sec ≠ "") :
    (setApiKeys (singleKey b sec) s).map (fun s2 => (getApiKey b s2).fst) =
      Except.ok (some sec) := by
  have hb : (sec != "") = true := bne_iff_ne.mpr hne
  cases b <;>
    simp [setApiKeys, setOne, singleKey, Keys.set, Keys.get, storeKey, clearKey, getApiKey,
      reinitIfEmpty, allKeysFalsy, initializeKeys, truthy_some, truthy_none, jsOr,
      havail, hthrow, htrim, hb, Except.map]

/-- Witness for C8: storing "k" for gemini in the empty browser state and resolving
gemini yields "k". -/
theorem update_resolve_roundtrip_witness :
    (setApiKeys (singleKey .gemini "k") exEmptyState).map (fun s2 => (getApiKey .gemini s2).fst) =
      Except.ok (some "k") :=
  update_resolve_roundtrip .gemini "k" exEmptyState rfl rfl rfl (by decide)

/-- C9: in a browser state, storing an empty value for a backend and then resolving
that backend returns the `process.env` default (or absent if none); and an in-memory
non-empty value always takes precedence over the environment default. -/
theorem update_empty_resolve_default (b : LLMProvider) (s : LLMState)
    (havail : s.storageAvailable = true) :
    (setApiKeys (singleKey b "") s).map (fun s2 => (getApiKey b s2).fst) =
      Except.ok (s.env.get b) ∧
    (∀ v, s.runtimeKeys.get b = some v → v ≠ "" → (getApiKey b s).fst = some v) := by
  constructor
  · cases b <;>
      simp [setApiKeys, setOne, singleKey, Keys.set, Keys.get, clearKey, getApiKey,
        reinitIfEmpty, allKeysFalsy, initializeKeys, truthy_none, jsOr, havail, Except.map,
        show (("" : String) != "") = false from rfl]
  · intro v hv hne
    have hb : (v != "") = true := bne_iff_ne.mpr hne
    cases b <;>
      simp [getApiKey, reinitIfEmpty, allKeysFalsy, Keys.get, jsOr, truthy_some,
        hv, hb, Keys.get] at hv ⊢ <;>
      simp [getApiKey, reinitIfEmpty, allKeysFalsy, Keys.get, jsOr, truthy_some, hv, hb]

/-- Witness for C9: clearing groq with an environment default present resolves to
the default; a runtime groq value wins over the environment default. -/
theorem update_empty_resolve_default_witness :
    (setApiKeys (singleKey .groq "") exEnvState).map (fun s2 => (getApiKey .groq s2).fst) =
      Except.ok (some "envq") ∧
    (getApiKey .groq exRuntimeEnvState).fst = some "rt" :=
  ⟨(update_empty_resolve_default .groq exEnvState rfl).1,
   (update_empty_resolve_default .groq exRuntimeEnvState rfl).2 "rt" rfl (by decide)⟩
